import Mathlib

/-!
Shallow embedding of the Feed Watch Engine of the rss-discord-bot repository.

The engine lives in `src/utils/rss-checker.ts` (class `RSSChecker`), the
persistence layer in `src/utils/kv-storage.ts` (class `KVStorageManager`),
the fetch/parse routine in `src/utils/rss-parser.ts` (`parseArticles`), and
the Discord notifier in `src/utils/discord.ts`.

Modelling conventions:
- Timestamps (`Date` values in TypeScript) are `Int` milliseconds since the
  epoch; `new Date(0)` is `0` and `Date` comparison is `Int` comparison.
- A delivery attempt (`postArticleToDiscord`) is a function
  `deliver : Article → Bool`: it never throws (the TS body catches every
  error and returns `false`), so its result is the success flag.
- JavaScript's stable `Array.prototype.sort` with comparator `c` is
  `List.mergeSort` with `le a b := c a b ≤ 0` (merge sort is stable).
- KV writes are modelled as pure state transformers on `StoreState`.
-/

/-- One feed entry, `Article` of `src/types.ts`: `title`, `link`,
`pubDate` (a `Date`, here `Int` milliseconds), `description`, optional
`guid`.  The optional `content` and `id` fields are never read by the
engine and are omitted. -/
structure Article where
  title : String
  link : String
  pubDate : Int
  description : String
  guid : Option String
deriving DecidableEq, Repr

/-- Subscription status, the `status` field of `FeedInfo` in
`src/types.ts`: `'active' | 'paused'`. -/
inductive FeedStatus where
  | active
  | paused
deriving DecidableEq, Repr

/-- `FeedInfo` of `src/types.ts`: per-feed subscription record persisted in
the `feeds-metadata` KV object.  `lastChecked` and `lastPubDate` are ISO
strings in TypeScript holding timestamps; they are modelled as `Option Int`
(absent field = `none`). -/
structure FeedInfo where
  id : String
  url : String
  title : String
  customName : Option String
  status : FeedStatus
  addedAt : String
  lastChecked : Option Int
  lastPubDate : Option Int
deriving DecidableEq, Repr

/-- The observable outcome of one per-feed check (`RSSChecker.checkFeed` or
the loop body of `RSSChecker.quickCheck`):
- `attempted`: the articles passed to the Notifier
  (`postArticleToDiscord`), in delivery order;
- `postedCount`: how many of those deliveries returned success;
- `writePubDate`: `some t` iff `kvManager.updateLastPubDate` was invoked,
  with the written timestamp `t`;
- `touchedLastChecked`: whether `kvManager.updateLastChecked` was invoked. -/
structure CheckResult where
  attempted : List Article
  postedCount : Nat
  writePubDate : Option Int
  touchedLastChecked : Bool
deriving DecidableEq, Repr

/-- `feed.lastPubDate ? new Date(feed.lastPubDate) : new Date(0)`
(rss-checker.ts lines 96 and 213): the stored watermark, or the epoch on a
feed's first-ever check. -/
def watermarkOf : Option Int → Int
  | some t => t
  | none => 0

/-- `Math.max(...articles.map(a => a.pubDate.getTime()))` over a non-empty
list (rss-checker.ts lines 128 and 233).  The `[]` case is arbitrary (the
code never evaluates `Math.max` of an empty list on these paths). -/
def listMax : List Int → Int
  | [] => 0
  | x :: xs => xs.foldl max x

/-- Latest `pubDate` among the fetched articles. -/
def maxPubDate (articles : List Article) : Int :=
  listMax (articles.map fun a => a.pubDate)

/-- `articles.filter(article => article.pubDate > lastPubDate).sort((a, b)
=> a.pubDate.getTime() - b.pubDate.getTime())` (rss-checker.ts lines
100-106): the new articles, sorted oldest first. -/
def newArticlesOf (lastPubDate : Option Int) (articles : List Article) : List Article :=
  (articles.filter fun a => decide (watermarkOf lastPubDate < a.pubDate)).mergeSort
    fun a b => decide (a.pubDate ≤ b.pubDate)

/-- `RSSChecker.checkFeed` (rss-checker.ts lines 82-142), given the feed's
stored `lastPubDate` and the fetched article list:
- empty fetch: only `updateLastChecked` (lines 89-93);
- no new articles: only `updateLastChecked` (lines 108-112);
- otherwise: deliver each new article oldest-first (lines 117-125), then
  `updateLastPubDate` with the max `pubDate` over ALL fetched articles
  (lines 127-130), then `updateLastChecked` (line 133). -/
def checkFeed (lastPubDate : Option Int) (articles : List Article)
    (deliver : Article → Bool) : CheckResult :=
  if articles.isEmpty then
    { attempted := [], postedCount := 0, writePubDate := none, touchedLastChecked := true }
  else if (newArticlesOf lastPubDate articles).isEmpty then
    { attempted := [], postedCount := 0, writePubDate := none, touchedLastChecked := true }
  else
    { attempted := newArticlesOf lastPubDate articles
      postedCount := ((newArticlesOf lastPubDate articles).filter deliver).length
      writePubDate := some (maxPubDate articles)
      touchedLastChecked := true }

/-- The per-feed body of `RSSChecker.quickCheck` (rss-checker.ts lines
207-242):
- empty fetch: `continue` — no state write at all (line 211);
- otherwise: filter new articles WITHOUT sorting (lines 216-220), deliver
  them in fetched order (lines 224-229), then always `updateLastPubDate`
  with the max `pubDate` over all fetched articles (lines 231-235), then
  `updateLastChecked` (line 237). -/
def quickCheckFeed (lastPubDate : Option Int) (articles : List Article)
    (deliver : Article → Bool) : CheckResult :=
  if articles.isEmpty then
    { attempted := [], postedCount := 0, writePubDate := none, touchedLastChecked := false }
  else
    let newOnes := articles.filter fun a => decide (watermarkOf lastPubDate < a.pubDate)
    { attempted := newOnes
      postedCount := (newOnes.filter deliver).length
      writePubDate := some (maxPubDate articles)
      touchedLastChecked := true }

/-- Outcome of the network fetch + XML parse inside `parseArticles`
(rss-parser.ts): either a parsed entry list or a failure (network error,
timeout, non-OK HTTP status, or a parse-stage throw). -/
inductive FetchOutcome where
  | ok (entries : List Article)
  | fail (message : String)
deriving Repr

/-- `parseArticles` of `src/utils/rss-parser.ts` (lines 80-111): on
success, sort the parsed articles newest-first (`sort((a, b) =>
b.pubDate.getTime() - a.pubDate.getTime())`) and keep the first
`maxArticles`; on ANY failure the `catch` block returns `[]` — the error
is swallowed, not rethrown. -/
def parseArticles (outcome : FetchOutcome) (maxArticles : Nat) : List Article :=
  match outcome with
  | .fail _ => []
  | .ok entries =>
      (entries.mergeSort fun a b => decide (b.pubDate ≤ a.pubDate)).take maxArticles

/-- `checkFeed` including its fetch step: `parseArticles(feed.url, 20)`
(rss-checker.ts line 87). -/
def checkFeedWithFetch (lastPubDate : Option Int) (outcome : FetchOutcome)
    (deliver : Article → Bool) : CheckResult :=
  checkFeed lastPubDate (parseArticles outcome 20) deliver

/-- The `quickCheck` per-feed body including its fetch step:
`parseArticles(feed.url, 10)` (rss-checker.ts line 209). -/
def quickCheckFeedWithFetch (lastPubDate : Option Int) (outcome : FetchOutcome)
    (deliver : Article → Bool) : CheckResult :=
  quickCheckFeed lastPubDate (parseArticles outcome 10) deliver

/-- Aggregate outcome of one orchestrator run (`checkAllFeeds` or
`quickCheck`): the feeds the per-feed step was invoked on (in order), and
the run counters (`totalNewArticles`, `successCount`, `errorCount`) plus
the number of `notifySystemError` calls made from the per-feed catch. -/
structure RunResult where
  processed : List FeedInfo
  totalNew : Nat
  successCount : Nat
  errorCount : Nat
  alertsSent : Nat
deriving DecidableEq, Repr

/-- The zeroed run counters at the start of a run. -/
def initRun : RunResult :=
  { processed := [], totalNew := 0, successCount := 0, errorCount := 0, alertsSent := 0 }

/-- The feed loop of `RSSChecker.checkAllFeeds` (rss-checker.ts lines
42-64).  The per-feed step is abstracted as `check : FeedInfo → Except
String Nat` (`checkFeed` rethrows any error, line 140).  On success the
new-article count and success counter advance; on error the error counter
advances and, when the CUMULATIVE error count has reached 3,
`notifySystemError` is called (lines 56-62) — `notifySystemError` never
throws (`sendWebhookMessage` catches every error and returns a Bool whose
value is discarded), so the alert cannot abort the loop. -/
def runLoop (check : FeedInfo → Except String Nat) :
    List FeedInfo → RunResult → RunResult
  | [], acc => acc
  | f :: rest, acc =>
      match check f with
      | .ok n =>
          runLoop check rest
            { acc with
              processed := acc.processed ++ [f]
              totalNew := acc.totalNew + n
              successCount := acc.successCount + 1 }
      | .error _ =>
          runLoop check rest
            { acc with
              processed := acc.processed ++ [f]
              errorCount := acc.errorCount + 1
              alertsSent :=
                if 3 ≤ acc.errorCount + 1 then acc.alertsSent + 1 else acc.alertsSent }

/-- `feeds.filter(feed => feed.status === 'active')` (rss-checker.ts lines
29 and 198). -/
def activeOf (feeds : List FeedInfo) : List FeedInfo :=
  feeds.filter fun f => decide (f.status = FeedStatus.active)

/-- `RSSChecker.checkAllFeeds` (rss-checker.ts lines 24-77): iterate the
full list of active feeds with per-feed failure isolation. -/
def checkAllFeeds (feeds : List FeedInfo) (check : FeedInfo → Except String Nat) :
    RunResult :=
  runLoop check (activeOf feeds) initRun

/-- The feed loop of `RSSChecker.quickCheck` (rss-checker.ts lines
207-242): per-feed errors are caught and logged, no alert is emitted, only
the new-article counter advances. -/
def quickLoop (check : FeedInfo → Except String Nat) :
    List FeedInfo → RunResult → RunResult
  | [], acc => acc
  | f :: rest, acc =>
      match check f with
      | .ok n =>
          quickLoop check rest
            { acc with processed := acc.processed ++ [f], totalNew := acc.totalNew + n }
      | .error _ =>
          quickLoop check rest { acc with processed := acc.processed ++ [f] }

/-- `RSSChecker.quickCheck` run selection (rss-checker.ts line 198):
`feeds.filter(feed => feed.status === 'active').slice(0, 1)` — at most
one active feed is processed. -/
def quickCheckRun (feeds : List FeedInfo) (check : FeedInfo → Except String Nat) :
    RunResult :=
  quickLoop check ((activeOf feeds).take 1) initRun

/-- The persisted KV contents the engine can touch: the `feeds-metadata`
record (as the `getFeeds` list) and the per-feed `read-articles-<id>`
lists (`KVStorageManager` in `src/utils/kv-storage.ts`). -/
structure StoreState where
  feeds : List FeedInfo
  readArticles : String → List String

/-- `KVStorageManager.updateLastPubDate` (kv-storage.ts lines 216-223):
set `lastPubDate` on the feed with the given id. -/
def updateLastPubDate (st : StoreState) (feedId : String) (pubDate : Int) : StoreState :=
  { st with
    feeds := st.feeds.map fun f =>
      if f.id = feedId then { f with lastPubDate := some pubDate } else f }

/-- `KVStorageManager.updateLastChecked` (kv-storage.ts lines 207-214):
set `lastChecked` on the feed with the given id. -/
def updateLastChecked (st : StoreState) (feedId : String) (now : Int) : StoreState :=
  { st with
    feeds := st.feeds.map fun f =>
      if f.id = feedId then { f with lastChecked := some now } else f }

/-- Apply a per-feed `CheckResult`'s state writes in the order the code
performs them: `updateLastPubDate` (if invoked) then `updateLastChecked`
(if invoked). -/
def applyCheckResult (st : StoreState) (feedId : String) (r : CheckResult)
    (now : Int) : StoreState :=
  let st1 :=
    match r.writePubDate with
    | some t => updateLastPubDate st feedId t
    | none => st
  if r.touchedLastChecked then updateLastChecked st1 feedId now else st1

/-- `RSSChecker.checkAllFeeds` at the level of the KV store: iterate the
snapshot of active feeds (each feed's `lastPubDate` is read from the
snapshot taken by `getFeeds` at the start of the run) and apply each
feed's state writes. -/
def checkAllFeedsState (st : StoreState) (fetch : String → FetchOutcome)
    (deliver : Article → Bool) (now : Int) : StoreState :=
  (activeOf st.feeds).foldl
    (fun s f =>
      applyCheckResult s f.id (checkFeedWithFetch f.lastPubDate (fetch f.url) deliver) now)
    st

/-- `RSSChecker.quickCheck` at the level of the KV store: same, over at
most one active feed. -/
def quickCheckState (st : StoreState) (fetch : String → FetchOutcome)
    (deliver : Article → Bool) (now : Int) : StoreState :=
  ((activeOf st.feeds).take 1).foldl
    (fun s f =>
      applyCheckResult s f.id (quickCheckFeedWithFetch f.lastPubDate (fetch f.url) deliver) now)
    st

/-- `KVStorageManager.saveReadArticles` (kv-storage.ts lines 242-251) on
the stored list: `articleHashes.slice(-1000)` — keep only the last (most
recent) 1000 hashes. -/
def saveReadArticlesList (hashes : List String) : List String :=
  hashes.drop (hashes.length - 1000)

/-- `KVStorageManager.addReadArticle` (kv-storage.ts lines 268-275): if
the hash is already present do nothing, else append it and save (which
truncates to the last 1000). -/
def addReadArticleList (stored : List String) (h : String) : List String :=
  if h ∈ stored then stored else saveReadArticlesList (stored ++ [h])

/-- One operation on a feed's read-identity list. -/
inductive ReadOp where
  | save (hashes : List String)
  | add (h : String)

/-- Apply one read-identity operation to the stored list. -/
def applyReadOp (st : List String) : ReadOp → List String
  | .save hashes => saveReadArticlesList hashes
  | .add h => addReadArticleList st h

/-- Apply a sequence of read-identity operations, oldest first. -/
def applyReadOps (st : List String) (ops : List ReadOp) : List String :=
  ops.foldl applyReadOp st

/-- A sample article with `pubDate` 100. -/
def artA : Article :=
  { title := "A", link := "a", pubDate := 100, description := "", guid := none }

/-- A sample article with `pubDate` 200. -/
def artB : Article :=
  { title := "B", link := "b", pubDate := 200, description := "", guid := none }

/-- A sample article with `pubDate` 300. -/
def artC : Article :=
  { title := "C", link := "c", pubDate := 300, description := "", guid := none }

/-- A sample subscription record with the given id and status. -/
def mkFeed (n : String) (st : FeedStatus) : FeedInfo :=
  { id := n, url := n, title := n, customName := none, status := st,
    addedAt := "t0", lastChecked := none, lastPubDate := none }

/-- Sample active feed 1. -/
def feed1 : FeedInfo := mkFeed "f1" FeedStatus.active

/-- Sample active feed 2. -/
def feed2 : FeedInfo := mkFeed "f2" FeedStatus.active

/-- Sample active feed 3. -/
def feed3 : FeedInfo := mkFeed "f3" FeedStatus.active

/-- Sample active feed 4. -/
def feed4 : FeedInfo := mkFeed "f4" FeedStatus.active

/-! ### Helper lemmas -/

/-- `foldl max` only grows its accumulator's lower bounds. -/
theorem le_foldl_max (l : List Int) (x a : Int) (hax : a ≤ x) : a ≤ l.foldl max x := by
  induction l generalizing x with
  | nil => simpa using hax
  | cons y l ih => exact ih (max x y) (le_trans hax (le_max_left x y))

/-- Every list element is bounded by `foldl max`. -/
theorem mem_le_foldl_max (l : List Int) (x a : Int) (ha : a ∈ l) : a ≤ l.foldl max x := by
  induction l generalizing x with
  | nil => cases ha
  | cons y l ih =>
    rcases List.mem_cons.mp ha with rfl | ha'
    · exact le_foldl_max l (max x a) a (le_max_right x a)
    · exact ih (max x y) ha'

/-- Every list element is bounded by `listMax`. -/
theorem le_listMax {l : List Int} {a : Int} (ha : a ∈ l) : a ≤ listMax l := by
  cases l with
  | nil => cases ha
  | cons x xs =>
    rcases List.mem_cons.mp ha with rfl | ha'
    · exact le_foldl_max xs a a le_rfl
    · exact mem_le_foldl_max xs x a ha'

/-- Every fetched article's `pubDate` is bounded by `maxPubDate`. -/
theorem pubDate_le_maxPubDate {articles : List Article} {a : Article}
    (ha : a ∈ articles) : a.pubDate ≤ maxPubDate articles :=
  le_listMax (List.mem_map_of_mem (fun a => a.pubDate) ha)

/-- Membership in the sorted new-article list is membership in the fetched
list plus the strict watermark test. -/
theorem mem_newArticlesOf {lastPubDate : Option Int} {articles : List Article}
    {a : Article} :
    a ∈ newArticlesOf lastPubDate articles ↔
      a ∈ articles ∧ watermarkOf lastPubDate < a.pubDate := by
  rw [newArticlesOf, (List.mergeSort_perm _ _).mem_iff, List.mem_filter]
  simp

/-- The sorted new-article list is empty iff no fetched article beats the
watermark. -/
theorem newArticlesOf_eq_nil_iff {lastPubDate : Option Int} {articles : List Article} :
    newArticlesOf lastPubDate articles = [] ↔
      ∀ a ∈ articles, ¬watermarkOf lastPubDate < a.pubDate := by
  rw [← List.length_eq_zero, newArticlesOf, (List.mergeSort_perm _ _).length_eq,
    List.length_eq_zero, List.filter_eq_nil_iff]
  simp

/-- The new-article list is sorted by `pubDate`, oldest first. -/
theorem pairwise_newArticlesOf (lastPubDate : Option Int) (articles : List Article) :
    (newArticlesOf lastPubDate articles).Pairwise fun a b => a.pubDate ≤ b.pubDate := by
  have h := @List.sorted_mergeSort Article (fun a b => decide (a.pubDate ≤ b.pubDate))
    (by intro a b c h1 h2; simp at h1 h2 ⊢; omega)
    (by intro a b; simp; omega)
    (articles.filter fun a => decide (watermarkOf lastPubDate < a.pubDate))
  simpa [newArticlesOf] using h

/-- A non-empty list has `isEmpty = false`. -/
theorem isEmpty_false_of_ne_nil {α : Type _} {l : List α} (h : l ≠ []) :
    l.isEmpty = false := by
  cases l with
  | nil => exact absurd rfl h
  | cons x xs => rfl

/-- C1: if a full per-feed check has just completed, so the persisted
watermark `w` is at least every fetched article's `publishedAt`, then
running `checkFeed` again on the same unchanged article list passes no
article to the Notifier and performs no watermark write (the persisted
dedup state is unchanged). -/
theorem checkFeed_idempotent (w : Int) (articles : List Article)
    (deliver : Article → Bool) (hcov : ∀ a ∈ articles, a.pubDate ≤ w) :
    (checkFeed (some w) articles deliver).attempted = [] ∧
    (checkFeed (some w) articles deliver).writePubDate = none := by
  have hnil : newArticlesOf (some w) articles = [] :=
    newArticlesOf_eq_nil_iff.mpr fun a ha => not_lt.mpr (hcov a ha)
  cases articles with
  | nil => simp [checkFeed]
  | cons a rest => simp [checkFeed, hnil]

/-- Witness for `checkFeed_idempotent` at a concrete feed state. -/
theorem checkFeed_idempotent_witness :
    (∀ a ∈ [artA, artB], a.pubDate ≤ (200 : Int)) ∧
    (checkFeed (some 200) [artA, artB] (fun _ => true)).attempted = [] ∧
    (checkFeed (some 200) [artA, artB] (fun _ => true)).writePubDate = none :=
  ⟨by decide, checkFeed_idempotent 200 [artA, artB] (fun _ => true) (by decide)⟩

unseal List.merge List.mergeSort in
/-- C2 counterexample: on a non-empty fetch with zero new articles,
`checkFeed` does NOT persist `max(publishedAt)` — it skips the
`updateLastPubDate` call entirely (rss-checker.ts lines 108-112 return
before line 130), so the persisted watermark (500 here) is not the claimed
`max(publishedAt) = 100`. -/
theorem checkFeed_watermark_skip_counterexample :
    (checkFeed (some 500) [artA] (fun _ => true)).writePubDate = none ∧
    (checkFeed (some 500) [artA] (fun _ => true)).writePubDate ≠
      some (maxPubDate [artA]) := by decide

/-- C2 amended: an article is classified as new iff its `publishedAt` is
strictly greater than the stored watermark (the epoch on a first-ever
check); whenever at least one fetched article is new, the persisted
watermark equals `max(publishedAt)` over ALL fetched articles and does not
depend on delivery successes or failures; and the lightweight check
persists `max(publishedAt)` over all fetched articles on every non-empty
fetch.  (When `checkFeed` finds no new articles it leaves the watermark
unchanged instead of writing the max.) -/
theorem checkFeed_new_iff_watermark_max (lastPubDate : Option Int)
    (articles : List Article) (deliver deliver' : Article → Bool) (a : Article) :
    (a ∈ (checkFeed lastPubDate articles deliver).attempted ↔
      a ∈ articles ∧ watermarkOf lastPubDate < a.pubDate) ∧
    ((∃ b ∈ articles, watermarkOf lastPubDate < b.pubDate) →
      (checkFeed lastPubDate articles deliver).writePubDate =
        some (maxPubDate articles) ∧
      (checkFeed lastPubDate articles deliver).writePubDate =
        (checkFeed lastPubDate articles deliver').writePubDate) ∧
    (articles ≠ [] →
      (quickCheckFeed lastPubDate articles deliver).writePubDate =
        some (maxPubDate articles)) := by
  refine ⟨?_, ?_, ?_⟩
  · cases articles with
    | nil => simp [checkFeed]
    | cons x rest =>
      by_cases hnil : newArticlesOf lastPubDate (x :: rest) = []
      · simp only [checkFeed, List.isEmpty_cons, Bool.false_eq_true, if_false, hnil,
          List.isEmpty_nil, if_true, List.not_mem_nil, false_iff]
        rintro ⟨ha, hlt⟩
        exact newArticlesOf_eq_nil_iff.mp hnil a ha hlt
      · have hne := isEmpty_false_of_ne_nil hnil
        simp [checkFeed, hne, mem_newArticlesOf]
  · rintro ⟨b, hb, hlt⟩
    have hnil : newArticlesOf lastPubDate articles ≠ [] := by
      rw [Ne, newArticlesOf_eq_nil_iff]
      push_neg
      exact ⟨b, hb, hlt⟩
    have hne := isEmpty_false_of_ne_nil hnil
    cases articles with
    | nil => cases hb
    | cons x rest => exact ⟨by simp [checkFeed, hne], by simp [checkFeed, hne]⟩
  · intro hanil
    cases articles with
    | nil => exact absurd rfl hanil
    | cons x rest => simp [quickCheckFeed]

/-- Witness for `checkFeed_new_iff_watermark_max`: the watermark is
persisted as the max even though every delivery failed. -/
theorem checkFeed_new_iff_watermark_max_witness :
    (checkFeed none [artA, artB] (fun _ => false)).writePubDate =
      some (maxPubDate [artA, artB]) :=
  ((checkFeed_new_iff_watermark_max none [artA, artB] (fun _ => false)
      (fun _ => true) artA).2.1 ⟨artA, by decide, by decide⟩).1

/-- C3 counterexample: `quickCheck` writes `max(publishedAt)` over the
fetched articles unconditionally (rss-checker.ts lines 231-235), so with a
stored watermark of 500 and a fetch whose newest article has
`publishedAt = 100` the persisted watermark DROPS from 500 to 100 — the
watermark is not monotonic non-decreasing under the bounded-lightweight
check. -/
theorem quickCheck_watermark_decrease_counterexample :
    (quickCheckFeed (some 500) [artA] (fun _ => true)).writePubDate = some 100 ∧
    ((quickCheckFeed (some 500) [artA] (fun _ => true)).writePubDate.getD 500) <
      500 := by decide

/-- C3 amended: the full per-feed check (`checkFeed`) only ever moves the
persisted watermark up (it writes only when a strictly newer article
exists); the bounded-lightweight check (`quickCheck`) is monotonic only
when some fetched article beats the stored watermark — on a fetch whose
articles all predate the watermark it can lower it. -/
theorem watermark_monotonic (w : Int) (articles : List Article)
    (deliver : Article → Bool) :
    w ≤ ((checkFeed (some w) articles deliver).writePubDate.getD w) ∧
    ((∃ a ∈ articles, w < a.pubDate) →
      w ≤ ((quickCheckFeed (some w) articles deliver).writePubDate.getD w)) := by
  constructor
  · cases articles with
    | nil => simp [checkFeed]
    | cons x rest =>
      by_cases hnil : newArticlesOf (some w) (x :: rest) = []
      · simp [checkFeed, hnil]
      · have hne := isEmpty_false_of_ne_nil hnil
        obtain ⟨b, hb⟩ := List.exists_mem_of_ne_nil _ hnil
        obtain ⟨hbmem, hblt⟩ := mem_newArticlesOf.mp hb
        have hmax : w < maxPubDate (x :: rest) :=
          lt_of_lt_of_le hblt (pubDate_le_maxPubDate hbmem)
        simp [checkFeed, hne]
        exact le_of_lt hmax
  · rintro ⟨a, ha, hlt⟩
    cases articles with
    | nil => cases ha
    | cons x rest =>
      have hmax : w < maxPubDate (x :: rest) :=
        lt_of_lt_of_le hlt (pubDate_le_maxPubDate ha)
      simp [quickCheckFeed]
      exact le_of_lt hmax

/-- Witness for `watermark_monotonic` at a concrete feed state. -/
theorem watermark_monotonic_witness :
    (0 : Int) ≤ ((quickCheckFeed (some 0) [artA] (fun _ => true)).writePubDate.getD 0) :=
  (watermark_monotonic 0 [artA] (fun _ => true)).2 ⟨artA, by decide, by decide⟩

unseal List.merge List.mergeSort in
/-- C4 counterexample: with three all-new articles of timestamps
100 < 200 < 300, the bounded-lightweight check delivers them in the
fetched-list order — which `parseArticles` returns newest-first — so the
Notifier receives timestamps [300, 200, 100], not ascending order:
`quickCheck` has no oldest-first sort (rss-checker.ts lines 216-229). -/
theorem quickCheck_ordering_counterexample :
    (100 : Int) < 200 ∧ (200 : Int) < 300 ∧
    ((quickCheckFeedWithFetch none (FetchOutcome.ok [artA, artB, artC])
        (fun _ => true)).attempted.map fun a => a.pubDate) = [300, 200, 100] ∧
    ((quickCheckFeedWithFetch none (FetchOutcome.ok [artA, artB, artC])
        (fun _ => true)).attempted.map fun a => a.pubDate) ≠ [100, 200, 300] := by
  decide

/-- C4 amended: the full per-feed check delivers new articles to the
Notifier in ascending `publishedAt` order (oldest first) regardless of
fetch order; the bounded-lightweight check instead delivers the new
articles exactly in fetched-list order (no sort), which is newest-first
given the parser's ordering. -/
theorem delivery_ordering (lastPubDate : Option Int) (articles : List Article)
    (deliver : Article → Bool) :
    (checkFeed lastPubDate articles deliver).attempted.Pairwise
      (fun a b => a.pubDate ≤ b.pubDate) ∧
    (quickCheckFeed lastPubDate articles deliver).attempted =
      articles.filter fun a => decide (watermarkOf lastPubDate < a.pubDate) := by
  constructor
  · cases articles with
    | nil => simp [checkFeed]
    | cons x rest =>
      by_cases hnil : newArticlesOf lastPubDate (x :: rest) = []
      · simp [checkFeed, hnil]
      · have hne := isEmpty_false_of_ne_nil hnil
        simp only [checkFeed, List.isEmpty_cons, Bool.false_eq_true, if_false, hne]
        exact pairwise_newArticlesOf lastPubDate (x :: rest)
  · cases articles with
    | nil => simp [quickCheckFeed]
    | cons x rest => simp [quickCheckFeed]

unseal List.merge List.mergeSort in
/-- C5 counterexample: a failed fetch is NOT distinguishable from a
successful empty fetch and no error reaches the caller — `parseArticles`'s
`catch` returns `[]` (rss-parser.ts lines 106-109), so `checkFeed` on a
fetch failure is literally equal to `checkFeed` on a successful empty
fetch, and it still updates `lastChecked` (rss-checker.ts line 91). -/
theorem fetch_failure_counterexample :
    checkFeedWithFetch (some 500) (FetchOutcome.fail "HTTP 500") (fun _ => true) =
      checkFeedWithFetch (some 500) (FetchOutcome.ok []) (fun _ => true) ∧
    (checkFeedWithFetch (some 500) (FetchOutcome.fail "HTTP 500")
        (fun _ => true)).touchedLastChecked = true := by decide

/-- C5 amended: if the fetch/parse step fails, the per-feed check leaves
the watermark untouched and delivers nothing, but the error is swallowed
(`parseArticles` returns `[]` from its catch block), so the run behaves
exactly as a successful empty fetch: `lastChecked` is still updated and no
error is surfaced to the caller. -/
theorem fetch_failure_behavior (lastPubDate : Option Int) (msg : String)
    (deliver : Article → Bool) :
    checkFeedWithFetch lastPubDate (FetchOutcome.fail msg) deliver =
      { attempted := [], postedCount := 0, writePubDate := none,
        touchedLastChecked := true } ∧
    checkFeedWithFetch lastPubDate (FetchOutcome.fail msg) deliver =
      checkFeedWithFetch lastPubDate (FetchOutcome.ok []) deliver := by
  constructor
  · simp [checkFeedWithFetch, parseArticles, checkFeed]
  · simp [checkFeedWithFetch, parseArticles, List.mergeSort_nil]

/-- The orchestrator loop processes every feed it is given, in order,
regardless of per-feed outcomes. -/
theorem runLoop_processed (check : FeedInfo → Except String Nat)
    (l : List FeedInfo) (acc : RunResult) :
    (runLoop check l acc).processed = acc.processed ++ l := by
  induction l generalizing acc with
  | nil => simp [runLoop]
  | cons f rest ih =>
    cases hc : check f with
    | ok n => simp [runLoop, hc, ih]
    | error e => simp [runLoop, hc, ih]

/-- Every iterated feed ends in exactly one of the success/error counters. -/
theorem runLoop_counts (check : FeedInfo → Except String Nat)
    (l : List FeedInfo) (acc : RunResult) :
    (runLoop check l acc).successCount + (runLoop check l acc).errorCount =
      acc.successCount + acc.errorCount + l.length := by
  induction l generalizing acc with
  | nil => simp [runLoop]
  | cons f rest ih =>
    cases hc : check f with
    | ok n =>
      simp only [runLoop, hc]
      rw [ih]
      simp
      omega
    | error e =>
      simp only [runLoop, hc]
      rw [ih]
      simp
      omega

/-- The loop invariant tying alerts to the cumulative error count: one
`notifySystemError` call per failure from the third failure onwards. -/
theorem runLoop_alerts (check : FeedInfo → Except String Nat)
    (l : List FeedInfo) (acc : RunResult)
    (h : acc.alertsSent = acc.errorCount - 2) :
    (runLoop check l acc).alertsSent = (runLoop check l acc).errorCount - 2 := by
  induction l generalizing acc with
  | nil => simpa [runLoop] using h
  | cons f rest ih =>
    cases hc : check f with
    | ok n =>
      simp only [runLoop, hc]
      exact ih _ (by simpa using h)
    | error e =>
      simp only [runLoop, hc]
      refine ih _ ?_
      simp only []
      split <;> omega

/-- C6 counterexample: with four active feeds all failing, the run emits
TWO aggregated alerts (at the third and the fourth failure), not exactly
one; and with failures at feeds 1, 2 and 4 only (so no three consecutive
failures ever occur), an alert is still emitted — the counter is
cumulative, not consecutive (rss-checker.ts lines 51-63). -/
theorem alert_count_counterexample :
    (checkAllFeeds [feed1, feed2, feed3, feed4]
        (fun _ => Except.error "boom")).errorCount = 4 ∧
    (checkAllFeeds [feed1, feed2, feed3, feed4]
        (fun _ => Except.error "boom")).alertsSent = 2 ∧
    (checkAllFeeds [feed1, feed2, feed3, feed4]
        (fun f => if f.id = "f3" then Except.ok 0 else Except.error "boom")).errorCount
      = 3 ∧
    (checkAllFeeds [feed1, feed2, feed3, feed4]
        (fun f => if f.id = "f3" then Except.ok 0 else Except.error "boom")).alertsSent
      = 1 := by decide

/-- C6 amended: each per-feed failure is caught, counted and never aborts
the run — every active feed is still processed; an aggregated alert is
emitted on EVERY failure once the run's CUMULATIVE failure count has
reached 3 (so `k` failures produce `k - 2` alerts, truncated at zero), the
alert itself cannot abort the run (`notifySystemError` swallows every
error); and every active feed lands in exactly one of the
success/error counters. -/
theorem run_alert_behavior (feeds : List FeedInfo)
    (check : FeedInfo → Except String Nat) :
    (checkAllFeeds feeds check).processed = activeOf feeds ∧
    (checkAllFeeds feeds check).alertsSent =
      (checkAllFeeds feeds check).errorCount - 2 ∧
    (checkAllFeeds feeds check).successCount + (checkAllFeeds feeds check).errorCount =
      (activeOf feeds).length := by
  refine ⟨?_, ?_, ?_⟩
  · simpa [checkAllFeeds, initRun] using runLoop_processed check (activeOf feeds) initRun
  · exact runLoop_alerts check (activeOf feeds) initRun (by simp [initRun])
  · simpa [checkAllFeeds, initRun] using runLoop_counts check (activeOf feeds) initRun

/-- C7: an error raised while processing feed `A` does not prevent a later
active feed `B` from being processed in the same full run — `B` is still
passed to the per-feed check. -/
theorem feed_isolation (feeds : List FeedInfo) (check : FeedInfo → Except String Nat)
    (A B : FeedInfo) (e : String) (_hA : A ∈ feeds) (_herr : check A = Except.error e)
    (hB : B ∈ feeds) (hact : B.status = FeedStatus.active) :
    B ∈ (checkAllFeeds feeds check).processed := by
  simp only [checkAllFeeds]
  rw [runLoop_processed]
  simp [initRun, activeOf, List.mem_filter, hB, hact]

/-- Witness for `feed_isolation`: the first feed's check fails, the second
feed is still processed. -/
theorem feed_isolation_witness :
    feed2 ∈ (checkAllFeeds [feed1, feed2] (fun _ => Except.error "boom")).processed :=
  feed_isolation [feed1, feed2] (fun _ => Except.error "boom") feed1 feed2 "boom"
    (by decide) rfl (by decide) rfl

/-- Applying one read-identity operation keeps the stored list within the
1000 cap. -/
theorem applyReadOp_length_le (st : List String) (op : ReadOp)
    (hst : st.length ≤ 1000) : (applyReadOp st op).length ≤ 1000 := by
  cases op with
  | save hashes =>
    simp only [applyReadOp, saveReadArticlesList, List.length_drop]
    omega
  | add h =>
    simp only [applyReadOp, addReadArticleList]
    split
    · exact hst
    · simp only [saveReadArticlesList, List.length_drop]
      omega

/-- Any sequence of read-identity operations keeps the stored list within
the 1000 cap. -/
theorem foldl_applyReadOp_length_le (ops : List ReadOp) (st : List String)
    (hst : st.length ≤ 1000) : (ops.foldl applyReadOp st).length ≤ 1000 := by
  induction ops generalizing st with
  | nil => simpa using hst
  | cons op rest ih => exact ih _ (applyReadOp_length_le st op hst)

/-- C8: after any sequence of save/add operations starting from an empty
read-identity list, the persisted list holds at most 1000 identities;
`saveReadArticles` keeps exactly the most recent `min(length, 1000)`
hashes as a suffix of its input (oldest evicted first,
`articleHashes.slice(-1000)`); and `addReadArticle` appends a fresh hash
at the most-recent end (then truncates from the oldest end), leaving the
list unchanged when the hash is already present. -/
theorem read_articles_cap (ops : List ReadOp) (hashes stored : List String)
    (idHash : String) :
    (applyReadOps [] ops).length ≤ 1000 ∧
    saveReadArticlesList hashes <:+ hashes ∧
    (saveReadArticlesList hashes).length = min hashes.length 1000 ∧
    addReadArticleList stored idHash <:+
      (if idHash ∈ stored then stored else stored ++ [idHash]) := by
  refine ⟨foldl_applyReadOp_length_le ops [] (by simp), List.drop_suffix _ _, ?_, ?_⟩
  · simp only [saveReadArticlesList, List.length_drop]
    omega
  · by_cases hmem : idHash ∈ stored
    · simp [addReadArticleList, hmem]
    · simp only [addReadArticleList, hmem, if_neg, if_false, saveReadArticlesList]
      exact List.drop_suffix _ _

/-- The lightweight loop also processes every feed it is given, in order. -/
theorem quickLoop_processed (check : FeedInfo → Except String Nat)
    (l : List FeedInfo) (acc : RunResult) :
    (quickLoop check l acc).processed = acc.processed ++ l := by
  induction l generalizing acc with
  | nil => simp [quickLoop]
  | cons f rest ih =>
    cases hc : check f with
    | ok n => simp [quickLoop, hc, ih]
    | error e => simp [quickLoop, hc, ih]

/-- C9: the full run passes exactly the `status = active` feeds to the
per-feed fetch/dedup/delivery step (a paused subscription is never passed,
even with pending new entries), and the bounded-lightweight run passes
exactly the first active feed — at most one feed. -/
theorem paused_never_processed (feeds : List FeedInfo)
    (check check' : FeedInfo → Except String Nat) :
    (checkAllFeeds feeds check).processed =
      feeds.filter (fun f => decide (f.status = FeedStatus.active)) ∧
    (quickCheckRun feeds check').processed =
      (feeds.filter (fun f => decide (f.status = FeedStatus.active))).take 1 ∧
    (quickCheckRun feeds check').processed.length ≤ 1 := by
  refine ⟨?_, ?_, ?_⟩
  · simp only [checkAllFeeds]
    rw [runLoop_processed]
    simp [initRun, activeOf]
  · simp only [quickCheckRun]
    rw [quickLoop_processed]
    simp [initRun, activeOf]
  · simp only [quickCheckRun]
    rw [quickLoop_processed]
    simp only [initRun, List.nil_append, List.length_take]
    omega

/-- A per-feed state write never touches the read-identity store. -/
theorem applyCheckResult_readArticles (st : StoreState) (feedId : String)
    (r : CheckResult) (now : Int) :
    (applyCheckResult st feedId r now).readArticles = st.readArticles := by
  cases hw : r.writePubDate <;> cases ht : r.touchedLastChecked <;>
    simp [applyCheckResult, hw, ht, updateLastPubDate, updateLastChecked]

/-- Folding per-feed state writes never touches the read-identity store. -/
theorem foldl_applyCheckResult_readArticles (g : FeedInfo → CheckResult) (now : Int)
    (l : List FeedInfo) (st : StoreState) :
    (l.foldl (fun s f => applyCheckResult s f.id (g f) now) st).readArticles =
      st.readArticles := by
  induction l generalizing st with
  | nil => rfl
  | cons f rest ih =>
    rw [List.foldl_cons, ih, applyCheckResult_readArticles]

/-- A per-feed state write's effect on the feed metadata depends only on
the feed metadata. -/
theorem applyCheckResult_feeds_eq (s t : StoreState) (hf : s.feeds = t.feeds)
    (feedId : String) (r : CheckResult) (now : Int) :
    (applyCheckResult s feedId r now).feeds =
      (applyCheckResult t feedId r now).feeds := by
  cases hw : r.writePubDate <;> cases ht : r.touchedLastChecked <;>
    simp [applyCheckResult, hw, ht, updateLastPubDate, updateLastChecked, hf]

/-- Folded per-feed state writes' effect on the feed metadata depends only
on the feed metadata. -/
theorem foldl_applyCheckResult_feeds_eq (g : FeedInfo → CheckResult) (now : Int)
    (l : List FeedInfo) (s t : StoreState) (hf : s.feeds = t.feeds) :
    (l.foldl (fun x f => applyCheckResult x f.id (g f) now) s).feeds =
      (l.foldl (fun x f => applyCheckResult x f.id (g f) now) t).feeds := by
  induction l generalizing s t with
  | nil => exact hf
  | cons f rest ih =>
    rw [List.foldl_cons, List.foldl_cons]
    exact ih _ _ (applyCheckResult_feeds_eq s t hf f.id (g f) now)

/-- C10: neither run mode ever reads or writes the identity-set dedup
state: both `checkAllFeeds` and `quickCheck` leave every feed's
`read-articles-<id>` KV entry exactly as it was, and their effect on the
feed metadata (watermarks, `lastChecked`) is independent of the
read-identity store's contents — novelty is decided solely by the
timestamp watermark. -/
theorem runs_never_touch_read_articles (feeds : List FeedInfo)
    (ra ra' : String → List String) (fetch : String → FetchOutcome)
    (deliver : Article → Bool) (now : Int) :
    (checkAllFeedsState ⟨feeds, ra⟩ fetch deliver now).readArticles = ra ∧
    (quickCheckState ⟨feeds, ra⟩ fetch deliver now).readArticles = ra ∧
    (checkAllFeedsState ⟨feeds, ra⟩ fetch deliver now).feeds =
      (checkAllFeedsState ⟨feeds, ra'⟩ fetch deliver now).feeds ∧
    (quickCheckState ⟨feeds, ra⟩ fetch deliver now).feeds =
      (quickCheckState ⟨feeds, ra'⟩ fetch deliver now).feeds := by
  refine ⟨?_, ?_, ?_, ?_⟩
  · exact foldl_applyCheckResult_readArticles
      (fun f => checkFeedWithFetch f.lastPubDate (fetch f.url) deliver) now _ _
  · exact foldl_applyCheckResult_readArticles
      (fun f => quickCheckFeedWithFetch f.lastPubDate (fetch f.url) deliver) now _ _
  · exact foldl_applyCheckResult_feeds_eq
      (fun f => checkFeedWithFetch f.lastPubDate (fetch f.url) deliver) now
      (activeOf feeds) ⟨feeds, ra⟩ ⟨feeds, ra'⟩ rfl
  · exact foldl_applyCheckResult_feeds_eq
      (fun f => quickCheckFeedWithFetch f.lastPubDate (fetch f.url) deliver) now
      ((activeOf feeds).take 1) ⟨feeds, ra⟩ ⟨feeds, ra'⟩ rfl
